import Mathlib

/-!
Verification of the second-hand data-enrichment and health-classification
pipeline.

The development shallowly embeds the core of the repository:

* `second_hand/utils/__init__.py`: the health classifier
  (`get_health_status` with its threshold table) and the country-flag
  derivation (`country_code_to_flag`).
* `second_hand/services/chrony.py`: the `EnrichedSource` record with its
  `__post_init__` flag derivation and `display_name`, the `ChronyData`
  aggregate with its predicates, `fetch_chrony_data`, and the enrichment
  orchestrator `enrich_sources`.
* `second_hand/services/dns.py`: the DNS service state (cache, failure
  counter) with `reverse_lookup`, `cached_reverse_lookup`, and a
  small-step model of the semaphore-bounded `batch_reverse_lookup`.
* `second_hand/services/geoip.py`: the GeoIP service state with
  `lookup` and the private-address short-circuit `_is_private_ip`.

Python floats are modelled as rationals (`Rat`); Python `None`/optional
values as `Option`; the external collaborators (pychrony, the aiodns
resolver, the ip-api HTTP endpoint, the `ipaddress` parser) are modelled
at their interfaces as explicit outcome parameters, exactly as the code
consumes them.  Effects on service state (caches, failure counters,
counts of external calls performed) are made explicit by state passing.
-/

namespace SecondHand

/-! ## Health classifier (`second_hand/utils/__init__.py`) -/

/-- Health verdict: the `Literal["healthy", "warning", "error"]` type of
`get_health_status`. -/
inductive HealthStatus where
  | healthy
  | warning
  | error
deriving DecidableEq, Repr

/-- The `_HEALTH_THRESHOLDS` table: metric name to
`(warning_threshold, error_threshold)`, values below warning are healthy. -/
def _HEALTH_THRESHOLDS : List (String × (Rat × Rat)) :=
  [("offset", (mkRat 10 1000, mkRat 100 1000)),
   ("rms_offset", (mkRat 1 1000, mkRat 10 1000)),
   ("frequency", (mkRat 10 1, mkRat 50 1)),
   ("skew", (mkRat 1 1, mkRat 5 1)),
   ("root_delay", (mkRat 50 1000, mkRat 100 1000)),
   ("root_dispersion", (mkRat 10 1000, mkRat 50 1000))]

/-- The `_STRATUM_THRESHOLDS` pair: warning if > 3, error if > 8 or == 16. -/
def _STRATUM_THRESHOLDS : Int × Int := (3, 8)

/-- Python `int(value)` on a float/rational: truncation toward zero. -/
def pyInt (q : Rat) : Int := Int.tdiv q.num (q.den : Int)

/-- Embedding of `get_health_status(metric, value)`: stratum and
reachability get integer treatment, the table metrics compare `abs(value)`
against their `(warning, error)` thresholds, unknown metrics are healthy. -/
def get_health_status (metric : String) (value : Rat) : HealthStatus :=
  if metric = "stratum" then
    let int_value := pyInt value
    if int_value = 16 then .error
    else if int_value > _STRATUM_THRESHOLDS.2 then .error
    else if int_value > _STRATUM_THRESHOLDS.1 then .warning
    else .healthy
  else if metric = "reachability" then
    let int_value := pyInt value
    if int_value < 127 then .error       -- 0o177
    else if int_value < 255 then .warning -- 0o377
    else .healthy
  else
    match _HEALTH_THRESHOLDS.lookup metric with
    | some (warning_threshold, error_threshold) =>
        let abs_value := |value|
        if abs_value ≥ error_threshold then .error
        else if abs_value ≥ warning_threshold then .warning
        else .healthy
    | none => .healthy

/-! ## Country flag derivation (`country_code_to_flag`) -/

/-- Python `str.upper()` at a single codepoint, embedded on the ASCII
range: ASCII lowercase maps to uppercase exactly as in Python and ASCII
uppercase, digits and punctuation are unchanged.  Python's full Unicode
case mapping differs off ASCII (it can change non-ASCII letters and even
return several characters, making the code's `ord(c.upper())` raise
`TypeError`); the theorems below therefore only evaluate this embedding
on ASCII characters, where it is exact. -/
def pyUpper (c : Char) : Char := c.toUpper

/-- Embedding of `country_code_to_flag(country_code)`.  `None` and the
falsy empty string, as well as any input whose length differs from 2,
yield the empty string; otherwise each character is uppercased and
shifted by 0x1F1A5, and if every shifted codepoint is a valid codepoint
(Python `chr` raises `ValueError` above 0x10FFFF, caught and turned into
the empty string) the two resulting characters are concatenated.
Because `pyUpper` embeds the uppercase step only on ASCII, this
definition agrees with the code exactly on inputs of ASCII characters;
theorems that assert outputs on length-2 inputs are restricted to ASCII
letters. -/
def country_code_to_flag (country_code : Option String) : String :=
  match country_code with
  | none => ""
  | some s =>
    if s = "" ∨ s.length ≠ 2 then ""
    else
      let codes := s.data.map (fun c => (pyUpper c).toNat + 0x1F1A5)
      if codes.all (fun n => n < 0x110000) then
        ⟨codes.map Char.ofNat⟩
      else ""

/-! ## Chrony data model (`second_hand/services/chrony.py`)

The pychrony record types are external collaborators; they are modelled
at the interface this code consumes: `Source.address`,
`TrackingStatus.is_synchronized()`, and otherwise opaque payloads. -/

/-- External pychrony `Source`: an NTP source record.  Only `address` is
read by this core; the remaining telemetry is carried as an opaque
payload so that distinct sources stay distinguishable. -/
structure Source where
  address : String
  payload : Nat
deriving DecidableEq, Repr

/-- External pychrony `TrackingStatus`, modelled at the interface: the
aggregator only stores it and calls `is_synchronized()`. -/
structure TrackingStatus where
  synchronized : Bool
  payload : Nat
deriving DecidableEq, Repr

/-- Result of the external method `TrackingStatus.is_synchronized()`. -/
def TrackingStatus.is_synchronized (t : TrackingStatus) : Bool :=
  t.synchronized

/-- External pychrony `SourceStats`, opaque to this core. -/
structure SourceStats where
  payload : Nat
deriving DecidableEq, Repr

/-- External pychrony `RTCData`, opaque to this core. -/
structure RTCData where
  payload : Nat
deriving DecidableEq, Repr

/-- The `EnrichedSource` dataclass: a source plus display metadata. -/
structure EnrichedSource where
  source : Source
  hostname : Option String
  country_code : Option String
  country_name : Option String
  country_flag : String
deriving DecidableEq, Repr

/-- Python truthiness of an optional string: `None` and `""` are falsy. -/
def strTruthy : Option String → Bool
  | none => false
  | some s => s ≠ ""

/-- The dataclass `__post_init__` of `EnrichedSource`: derive
`country_flag` from `country_code` if not set. -/
def EnrichedSource.post_init (e : EnrichedSource) : EnrichedSource :=
  if e.country_flag = "" ∧ strTruthy e.country_code then
    { e with country_flag := country_code_to_flag e.country_code }
  else e

/-- Constructing an `EnrichedSource`: the dataclass runs `__post_init__`
after field assignment on every construction. -/
def EnrichedSource.make (source : Source) (hostname country_code country_name : Option String)
    (country_flag : String) : EnrichedSource :=
  EnrichedSource.post_init
    { source := source, hostname := hostname, country_code := country_code,
      country_name := country_name, country_flag := country_flag }

/-- Constructing an `EnrichedSource` without an explicit `country_flag`
argument: the dataclass default is the empty string. -/
def EnrichedSource.makeDefault (source : Source)
    (hostname country_code country_name : Option String) : EnrichedSource :=
  EnrichedSource.make source hostname country_code country_name ""

/-- The `display_name` property: `"hostname (address)"` when the hostname
is truthy, otherwise the bare address. -/
def EnrichedSource.display_name (e : EnrichedSource) : String :=
  match e.hostname with
  | some h => if h ≠ "" then h ++ " (" ++ e.source.address ++ ")" else e.source.address
  | none => e.source.address

/-- The `ChronyData` aggregate dataclass. -/
structure ChronyData where
  tracking : Option TrackingStatus
  sources : List Source
  source_stats : List SourceStats
  rtc : Option RTCData
  error : Option String
deriving DecidableEq, Repr

/-- The `is_connected` property of `ChronyData`. -/
def ChronyData.is_connected (d : ChronyData) : Bool :=
  d.error.isNone && d.tracking.isSome

/-- The `is_synchronized` property of `ChronyData`. -/
def ChronyData.is_synchronized (d : ChronyData) : Bool :=
  match d.tracking with
  | some t => t.is_synchronized
  | none => false

/-! ## The chrony aggregator (`fetch_chrony_data`) -/

/-- The distinguishable pychrony error kinds caught by the aggregator. -/
inductive ChronyError where
  | connectionError
  | libraryError
  | permissionError
deriving DecidableEq, Repr

/-- External `ChronyConnection` behaviour, at the interface the
aggregator uses: each getter either returns its record or raises one of
the distinguished error kinds.  `get_rtc_data` returns `None` when the
RTC is unavailable rather than raising. -/
structure ChronyConnection where
  get_tracking : Except ChronyError TrackingStatus
  get_sources : Except ChronyError (List Source)
  get_source_stats : Except ChronyError (List SourceStats)
  get_rtc_data : Except ChronyError (Option RTCData)

/-- The body of the `with ChronyConnection(...)` block: entering the
context manager may itself raise, then the four getters run in order,
any raise aborting the rest. -/
def chronyFetchBody (conn : Except ChronyError ChronyConnection) :
    Except ChronyError (TrackingStatus × List Source × List SourceStats × Option RTCData) := do
  let c ← conn
  let tracking ← c.get_tracking
  let sources ← c.get_sources
  let source_stats ← c.get_source_stats
  let rtc ← c.get_rtc_data
  pure (tracking, sources, source_stats, rtc)

/-- Embedding of `fetch_chrony_data`: connection/library errors and
permission errors are each converted to an empty `ChronyData` carrying
the corresponding fixed message; success carries the fetched records and
no error. -/
def fetch_chrony_data (conn : Except ChronyError ChronyConnection) : ChronyData :=
  match chronyFetchBody conn with
  | .error .connectionError | .error .libraryError =>
      { tracking := none, sources := [], source_stats := [], rtc := none,
        error := some "Unable to connect to chronyd. Is the service running?" }
  | .error .permissionError =>
      { tracking := none, sources := [], source_stats := [], rtc := none,
        error := some "Permission denied. Add your user to the chrony group." }
  | .ok (tracking, sources, source_stats, rtc) =>
      { tracking := some tracking, sources := sources,
        source_stats := source_stats, rtc := rtc, error := none }

/-! ## GeoIP service (`second_hand/services/geoip.py`) -/

/-- The `GeoIPResult` dataclass. -/
structure GeoIPResult where
  ip_address : String
  is_private : Bool
  country_code : Option String
  country_name : Option String
deriving DecidableEq, Repr

/-- Classification bits of a parsed address, as exposed by the external
`ipaddress` library on the object returned by `ipaddress.ip_address`. -/
structure IPProperties where
  is_private : Bool
  is_loopback : Bool
  is_link_local : Bool
  is_reserved : Bool
  is_multicast : Bool
deriving DecidableEq, Repr

/-- Embedding of `GeoIPService._is_private_ip`, over the outcome of
`ipaddress.ip_address(ip_str)`: `none` models the `ValueError` of an
unparsable address, which the code treats as non-geolocatable. -/
def GeoIPService._is_private_ip (parsed : Option IPProperties) : Bool :=
  match parsed with
  | some ip =>
      ip.is_private || ip.is_loopback || ip.is_link_local || ip.is_reserved ||
        ip.is_multicast
  | none => true

/-- Outcome of the external HTTP GET against ip-api.com, at the interface
the code consumes: an HTTP status plus the JSON fields read via
`data.get(...)`, or a timeout, or any other exception. -/
inductive ApiOutcome where
  | response (status : Nat) (api_success : Bool)
      (countryCode : Option String) (country : Option String)
  | timeout
  | failure
deriving DecidableEq, Repr

/-- Mutable state of a `GeoIPService` instance: the cache (a TTL map,
modelled within one TTL window as an association list), the failure
counter, and a count of network requests actually issued. -/
structure GeoIPState where
  cache : List (String × GeoIPResult)
  failure_count : Nat
  network_calls : Nat
deriving DecidableEq, Repr

/-- Embedding of `GeoIPService.lookup(ip)`.  `parse` is the external
`ipaddress.ip_address` parser and `net` the outcome the external API
would produce for this request; `network_calls` counts issued requests. -/
def GeoIPService.lookup (parse : String → Option IPProperties) (net : ApiOutcome)
    (st : GeoIPState) (ip : String) : GeoIPResult × GeoIPState :=
  match st.cache.lookup ip with
  | some cached => (cached, st)
  | none =>
    if GeoIPService._is_private_ip (parse ip) then
      let result : GeoIPResult :=
        { ip_address := ip, is_private := true, country_code := none,
          country_name := none }
      (result, { st with cache := (ip, result) :: st.cache })
    else
      let st1 : GeoIPState := { st with network_calls := st.network_calls + 1 }
      match net with
      | .response status api_success countryCode country =>
        if status ≠ 200 then
          let result : GeoIPResult :=
            { ip_address := ip, is_private := false, country_code := none,
              country_name := none }
          (result, { st1 with failure_count := st1.failure_count + 1,
                              cache := (ip, result) :: st1.cache })
        else if ¬ api_success then
          let result : GeoIPResult :=
            { ip_address := ip, is_private := false, country_code := none,
              country_name := none }
          (result, { st1 with failure_count := st1.failure_count + 1,
                              cache := (ip, result) :: st1.cache })
        else
          let result : GeoIPResult :=
            { ip_address := ip, is_private := false, country_code := countryCode,
              country_name := country }
          (result, { st1 with cache := (ip, result) :: st1.cache })
      | .timeout =>
          let result : GeoIPResult :=
            { ip_address := ip, is_private := false, country_code := none,
              country_name := none }
          (result, { st1 with failure_count := st1.failure_count + 1,
                              cache := (ip, result) :: st1.cache })
      | .failure =>
          let result : GeoIPResult :=
            { ip_address := ip, is_private := false, country_code := none,
              country_name := none }
          (result, { st1 with failure_count := st1.failure_count + 1,
                              cache := (ip, result) :: st1.cache })

/-! ## DNS service (`second_hand/services/dns.py`) -/

/-- Outcome of the external resolver call
`asyncio.wait_for(self._resolver.gethostbyaddr(ip), timeout)`, at the
interface the code consumes: a result whose `.name` is read, a
`TimeoutError`, a `DNSError`, or any other exception. -/
inductive ResolverOutcome where
  | found (name : String)
  | timeout
  | dnsError
  | unexpectedError
deriving DecidableEq, Repr

/-- Mutable state of a `DNSService` instance: the TTL cache (modelled
within one TTL window as an association list, storing `none` for failed
lookups too), the failure counter, and a count of resolver calls made. -/
structure DNSState where
  cache : List (String × Option String)
  failure_count : Nat
  resolver_calls : Nat
deriving DecidableEq, Repr

/-- Embedding of `DNSService.reverse_lookup(ip)`: one resolver call;
every timeout, DNS error or unexpected error is caught, bumps the
failure counter, and yields `none`. -/
def DNSService.reverse_lookup (resolve : ResolverOutcome) (st : DNSState) :
    Option String × DNSState :=
  let st1 : DNSState := { st with resolver_calls := st.resolver_calls + 1 }
  match resolve with
  | .found name => (some name, st1)
  | .timeout => (none, { st1 with failure_count := st1.failure_count + 1 })
  | .dnsError => (none, { st1 with failure_count := st1.failure_count + 1 })
  | .unexpectedError => (none, { st1 with failure_count := st1.failure_count + 1 })

/-- Embedding of `DNSService.cached_reverse_lookup(ip)`: cache hit
returns the cached value (also a cached `none`); cache miss performs
`reverse_lookup` and caches its outcome. -/
def DNSService.cached_reverse_lookup (resolve : ResolverOutcome) (st : DNSState)
    (ip : String) : Option String × DNSState :=
  match st.cache.lookup ip with
  | some cached => (cached, st)
  | none =>
    let (hostname, st1) := DNSService.reverse_lookup resolve st
    (hostname, { st1 with cache := (ip, hostname) :: st1.cache })

/-! ## Enrichment orchestrator (`enrich_sources`) -/

/-- Embedding of `enrich_sources(sources)`.  The two batch lookups are
represented by their results: `hostnames.get(ip)` and
`geo_results.get(ip)` as functions from address to optional value.  Each
source is joined with its lookups into an `EnrichedSource`, the flag
being derived from the country code. -/
def enrich_sources (hostnames : String → Option String)
    (geo_results : String → Option GeoIPResult) (sources : List Source) :
    List EnrichedSource :=
  sources.map (fun source =>
    let ip := source.address
    let hostname := hostnames ip
    let geo_result := geo_results ip
    EnrichedSource.make source hostname
      (Option.bind geo_result GeoIPResult.country_code)
      (Option.bind geo_result GeoIPResult.country_name)
      (country_code_to_flag (Option.bind geo_result GeoIPResult.country_code)))

/-! ## Semaphore-bounded batch lookup (`DNSService.batch_reverse_lookup`)

The batch runs one `limited_lookup` task per requested address under a
counting semaphore initialised to `max_concurrent`, and gathers all
results.  The cooperative scheduling of those tasks is modelled as a
small-step transition relation: a pending task may start only by
acquiring a semaphore permit, a running task finishes with some result
and releases its permit.  `asyncio.gather` returns exactly when every
task has finished. -/

/-- Scheduling state of one `limited_lookup(ip)` task. -/
inductive LookupTask where
  | pending
  | running
  | finished (result : Option String)
deriving DecidableEq, Repr

/-- State of one `batch_reverse_lookup` call: per-address task states, in
request order, plus the free permits of `self._semaphore`. -/
structure BatchState where
  tasks : List (String × LookupTask)
  available : Nat
deriving DecidableEq, Repr

/-- Initial state of `batch_reverse_lookup(ips)`: every task pending, all
`max_concurrent` permits free. -/
def BatchState.initial (max_concurrent : Nat) (ips : List String) : BatchState :=
  { tasks := ips.map (fun ip => (ip, LookupTask.pending)), available := max_concurrent }

/-- Number of tasks currently inside the `async with self._semaphore`
block, i.e. lookups in flight. -/
def BatchState.running_count (s : BatchState) : Nat :=
  s.tasks.countP (fun t => t.2 = LookupTask.running)

/-- Whether every task of the batch has finished: the condition under
which `asyncio.gather` resumes the caller. -/
def BatchState.allFinished (s : BatchState) : Bool :=
  s.tasks.all (fun t => match t.2 with | LookupTask.finished _ => true | _ => false)

/-- The result mapping assembled from the finished tasks
(`dict(results)`). -/
def BatchState.results (s : BatchState) : List (String × Option String) :=
  s.tasks.filterMap (fun t =>
    match t with
    | (ip, LookupTask.finished r) => some (ip, r)
    | _ => none)

/-- One cooperative scheduling step of the batch: `acquire` moves a
pending task into the semaphore block, possible only while a permit is
free (otherwise the task suspends); `release` completes a running task
with its lookup result and frees its permit. -/
inductive BatchStep : BatchState → BatchState → Prop where
  | acquire (i : Nat) (ip : String) (s : BatchState)
      (hi : s.tasks[i]? = some (ip, LookupTask.pending))
      (hfree : 0 < s.available) :
      BatchStep s { tasks := s.tasks.set i (ip, LookupTask.running),
                    available := s.available - 1 }
  | release (i : Nat) (ip : String) (r : Option String) (s : BatchState)
      (hi : s.tasks[i]? = some (ip, LookupTask.running)) :
      BatchStep s { tasks := s.tasks.set i (ip, LookupTask.finished r),
                    available := s.available + 1 }

/-! ## Theorems -/

/-- Classification shape shared by all threshold-table metrics. -/
theorem classify_shape (w e v : Rat) (hwe : w ≤ e) :
    ((if e ≤ |v| then HealthStatus.error
      else if w ≤ |v| then HealthStatus.warning else HealthStatus.healthy) =
        HealthStatus.error ↔ e ≤ |v|)
    ∧ ((if e ≤ |v| then HealthStatus.error
        else if w ≤ |v| then HealthStatus.warning else HealthStatus.healthy) =
          HealthStatus.warning ↔ w ≤ |v| ∧ |v| < e)
    ∧ ((if e ≤ |v| then HealthStatus.error
        else if w ≤ |v| then HealthStatus.warning else HealthStatus.healthy) =
          HealthStatus.healthy ↔ |v| < w) := by
  split_ifs with h1 h2
  all_goals refine ⟨?_, ?_, ?_⟩ <;> simp_all <;> linarith

/-- C5: `get_health_status` classifies stratum by the 16 sentinel and the
(3, 8) integer thresholds, reachability by the 127 (octal 177) and 255
(octal 377) cutoffs, and any unrecognized metric name as healthy. -/
theorem get_health_status_special_metrics_spec (v : Rat) :
    (get_health_status "stratum" v =
      (if pyInt v = 16 ∨ 8 < pyInt v then HealthStatus.error
       else if 3 < pyInt v then HealthStatus.warning else HealthStatus.healthy))
    ∧ (get_health_status "reachability" v =
      (if pyInt v < 127 then HealthStatus.error
       else if pyInt v < 255 then HealthStatus.warning else HealthStatus.healthy))
    ∧ (∀ m : String, m ∉ ["stratum", "reachability", "offset", "rms_offset",
        "frequency", "skew", "root_delay", "root_dispersion"] →
        get_health_status m v = HealthStatus.healthy) := by
  refine ⟨?_, ?_, ?_⟩
  · simp only [get_health_status, _STRATUM_THRESHOLDS]
    split_ifs <;> simp_all <;> omega
  · simp [get_health_status]
  · intro m hm
    simp only [List.mem_cons, not_or] at hm
    obtain ⟨h1, h2, h3, h4, h5, h6, h7, h8, -⟩ := hm
    have e3 : (m == "offset") = false := by simp [h3]
    have e4 : (m == "rms_offset") = false := by simp [h4]
    have e5 : (m == "frequency") = false := by simp [h5]
    have e6 : (m == "skew") = false := by simp [h6]
    have e7 : (m == "root_delay") = false := by simp [h7]
    have e8 : (m == "root_dispersion") = false := by simp [h8]
    simp [get_health_status, _HEALTH_THRESHOLDS, List.lookup,
      h1, h2, e3, e4, e5, e6, e7, e8]

/-- Witness for C5 at metric "bogus" and value 16. -/
theorem get_health_status_special_metrics_spec_witness :
    get_health_status "bogus" (mkRat 16 1) = HealthStatus.healthy :=
  (get_health_status_special_metrics_spec (mkRat 16 1)).2.2 "bogus" (by decide)

/-- Reduction of `get_health_status` at a metric found in the table. -/
theorem get_health_status_table_reduce (m : String) (w e : Rat)
    (hm1 : m ≠ "stratum") (hm2 : m ≠ "reachability")
    (hlk : _HEALTH_THRESHOLDS.lookup m = some (w, e)) (u : Rat) :
    get_health_status m u =
      (if e ≤ |u| then HealthStatus.error
       else if w ≤ |u| then HealthStatus.warning else HealthStatus.healthy) := by
  simp [get_health_status, hm1, hm2, hlk]

/-- C6: the threshold table is exactly the specified six (warning, error)
pairs, and for each table metric the classification compares the absolute
value against the pair — error at or above the error threshold, warning
at or above the warning threshold, healthy below — hence it is
sign-independent. -/
theorem get_health_status_table_spec :
    _HEALTH_THRESHOLDS =
      [("offset", ((0.010 : Rat), (0.100 : Rat))),
       ("rms_offset", ((0.001 : Rat), (0.010 : Rat))),
       ("frequency", ((10 : Rat), (50 : Rat))),
       ("skew", ((1 : Rat), (5 : Rat))),
       ("root_delay", ((0.050 : Rat), (0.100 : Rat))),
       ("root_dispersion", ((0.010 : Rat), (0.050 : Rat)))]
    ∧ ∀ m w e, (m, (w, e)) ∈ _HEALTH_THRESHOLDS → ∀ v : Rat,
        (get_health_status m v = HealthStatus.error ↔ e ≤ |v|)
        ∧ (get_health_status m v = HealthStatus.warning ↔ w ≤ |v| ∧ |v| < e)
        ∧ (get_health_status m v = HealthStatus.healthy ↔ |v| < w)
        ∧ get_health_status m v = get_health_status m (-v) := by
  constructor
  · norm_num [_HEALTH_THRESHOLDS, mkRat, Rat.normalize]
  · intro m w e hm v
    have main : m ≠ "stratum" → m ≠ "reachability" →
        _HEALTH_THRESHOLDS.lookup m = some (w, e) → w ≤ e →
        (get_health_status m v = HealthStatus.error ↔ e ≤ |v|)
        ∧ (get_health_status m v = HealthStatus.warning ↔ w ≤ |v| ∧ |v| < e)
        ∧ (get_health_status m v = HealthStatus.healthy ↔ |v| < w)
        ∧ get_health_status m v = get_health_status m (-v) := by
      intro hm1 hm2 hlk hwe
      have hred := get_health_status_table_reduce m w e hm1 hm2 hlk
      obtain ⟨c1, c2, c3⟩ := classify_shape w e v hwe
      rw [← hred v] at c1 c2 c3
      exact ⟨c1, c2, c3, by rw [hred v, hred (-v), abs_neg]⟩
    simp only [_HEALTH_THRESHOLDS, List.mem_cons, List.not_mem_nil, or_false,
      Prod.mk.injEq] at hm
    rcases hm with h | h | h | h | h | h <;> obtain ⟨rfl, h2, h3⟩ := h <;>
      subst h2 <;> subst h3 <;>
      exact main (by decide) (by decide) (by decide) (by decide)

/-- Witness for C6 at metric "offset" and value -0.200. -/
theorem get_health_status_table_spec_witness :
    get_health_status "offset" (mkRat (-200) 1000) = HealthStatus.error :=
  ((get_health_status_table_spec.2 "offset" (mkRat 10 1000) (mkRat 100 1000)
      (by decide) (mkRat (-200) 1000)).1).mpr (by decide)

/-- C7 counterexample: "1A" is a two-character input that is not a
two-letter country code (its first character is not a letter), yet
`country_code_to_flag` returns a non-empty string for it instead of the
empty string the claim requires for invalid input. -/
theorem country_code_to_flag_cex :
    ¬ ("1A".data.all Char.isAlpha) ∧ "1A".length = 2 ∧
      country_code_to_flag (some "1A") ≠ "" := by decide

/-- Uppercasing an ASCII letter lands in the ASCII uppercase range
65..90.  On this range the embedding coincides with Python, whose
`str.upper()` maps each ASCII letter to the single corresponding
uppercase codepoint. -/
theorem alpha_pyUpper_range (c : Char) (h : c.isAlpha = true) :
    65 ≤ (pyUpper c).toNat ∧ (pyUpper c).toNat ≤ 90 := by
  simp only [Char.isAlpha, Char.isUpper, Char.isLower, Bool.or_eq_true,
    Bool.and_eq_true, decide_eq_true_eq] at h
  cases h with
  | inl hu =>
    have n1 : 65 ≤ c.toNat := UInt32.le_toNat_of_le (by decide) hu.1
    have n2 : c.toNat ≤ 90 := UInt32.toNat_le_of_le (by decide) hu.2
    unfold pyUpper Char.toUpper
    rw [if_neg (by omega)]
    exact ⟨n1, n2⟩
  | inr hl =>
    have n1 : 97 ≤ c.toNat := UInt32.le_toNat_of_le (by decide) hl.1
    have n2 : c.toNat ≤ 122 := UInt32.toNat_le_of_le (by decide) hl.2
    unfold pyUpper Char.toUpper
    rw [if_pos ⟨n1, n2⟩]
    set k := c.toNat with hk
    interval_cases k <;> exact (by decide)

/-- Building a character from a valid codepoint preserves the
codepoint. -/
theorem toNat_ofNat_of_valid (n : Nat) (h : n.isValidChar) :
    (Char.ofNat n).toNat = n := by
  unfold Char.ofNat
  rw [dif_pos h]
  rfl

/-- C7 amended: `country_code_to_flag` returns, for a two-letter (ASCII
alphabetic) country code, the concatenation of the two Regional
Indicator Symbols obtained by adding 0x1F1A5 to each character's
uppercase codepoint — a non-empty 2-codepoint string whose codepoints
lie in the Regional Indicator range U+1F1E6..U+1F1FF — and returns the
empty string for null and wrong-length input; a two-character input that
is not a two-letter code is, contrary to the original claim, not mapped
to the empty string in general (see the counterexample at "1A"). -/
theorem country_code_to_flag_amended_spec (cc : Option String) :
    (cc = none → country_code_to_flag cc = "")
    ∧ (∀ s, cc = some s → s.length ≠ 2 → country_code_to_flag cc = "")
    ∧ (∀ s, cc = some s → s.length = 2 → s.data.all Char.isAlpha = true →
        country_code_to_flag cc =
            String.mk ((s.data.map (fun c => (pyUpper c).toNat + 0x1F1A5)).map
              Char.ofNat)
          ∧ country_code_to_flag cc ≠ ""
          ∧ (country_code_to_flag cc).length = 2
          ∧ ∀ ch ∈ (country_code_to_flag cc).data,
              0x1F1E6 ≤ ch.toNat ∧ ch.toNat ≤ 0x1F1FF) := by
  refine ⟨fun h => by subst h; rfl, fun s hs hlen => ?_, fun s hs hlen halpha => ?_⟩
  · subst hs
    simp [country_code_to_flag, hlen]
  · subst hs
    have hne : s ≠ "" := by
      intro h
      subst h
      simp at hlen
    have hdata : s.data.length = 2 := hlen
    have hbound : ∀ c ∈ s.data, 65 ≤ (pyUpper c).toNat ∧ (pyUpper c).toNat ≤ 90 :=
      fun c hc => alpha_pyUpper_range c (List.all_eq_true.mp halpha c hc)
    have hall : ((s.data.map (fun c => (pyUpper c).toNat + 0x1F1A5)).all
        (fun n => n < 0x110000)) = true := by
      rw [List.all_eq_true]
      intro n hn
      obtain ⟨c, hc, rfl⟩ := List.mem_map.mp hn
      have := hbound c hc
      simp only [decide_eq_true_eq]
      omega
    have hval : country_code_to_flag (some s) =
        String.mk ((s.data.map (fun c => (pyUpper c).toNat + 0x1F1A5)).map
          Char.ofNat) := by
      simp [country_code_to_flag, hne, hlen, hall]
    refine ⟨hval, ?_, ?_, ?_⟩
    · rw [hval]
      intro hcontra
      have hdat : (s.data.map (fun c => (pyUpper c).toNat + 0x1F1A5)).map
          Char.ofNat = [] := congrArg String.data hcontra
      have hzero : s.data.length = 0 := by
        simpa using congrArg List.length hdat
      omega
    · rw [hval]
      show ((s.data.map (fun c => (pyUpper c).toNat + 0x1F1A5)).map
        Char.ofNat).length = 2
      simp [hdata]
    · rw [hval]
      intro ch hch
      have hch' : ch ∈ (s.data.map (fun c => (pyUpper c).toNat + 0x1F1A5)).map
          Char.ofNat := hch
      obtain ⟨n, hn, rfl⟩ := List.mem_map.mp hch'
      obtain ⟨c, hc, rfl⟩ := List.mem_map.mp hn
      have hb := hbound c hc
      have hvalid : ((pyUpper c).toNat + 0x1F1A5).isValidChar :=
        Or.inr ⟨by omega, by omega⟩
      rw [toNat_ofNat_of_valid _ hvalid]
      omega

/-- Witness for C7 amended at the inputs "US", "X" and `none`. -/
theorem country_code_to_flag_amended_spec_witness :
    country_code_to_flag none = "" ∧ country_code_to_flag (some "X") = "" ∧
      country_code_to_flag (some "US") ≠ "" :=
  ⟨(country_code_to_flag_amended_spec none).1 rfl,
   (country_code_to_flag_amended_spec (some "X")).2.1 "X" rfl (by decide),
   ((country_code_to_flag_amended_spec (some "US")).2.2 "US" rfl (by decide)
     (by decide)).2.1⟩

/-- C9: an `EnrichedSource` built without an explicit flag always carries
`country_code_to_flag` of its country code as its flag (a plain string by
type), which is the empty string when the country code is absent. -/
theorem enriched_source_default_flag_spec (src : Source)
    (h cc cn : Option String) :
    (EnrichedSource.makeDefault src h cc cn).country_flag =
        country_code_to_flag cc
    ∧ (cc = none → (EnrichedSource.makeDefault src h cc cn).country_flag = "") := by
  have hflag : (EnrichedSource.makeDefault src h cc cn).country_flag =
      country_code_to_flag cc := by
    unfold EnrichedSource.makeDefault EnrichedSource.make EnrichedSource.post_init
    cases cc with
    | none => simp [strTruthy, country_code_to_flag]
    | some c =>
      by_cases hc : c = ""
      · subst hc
        simp [strTruthy, country_code_to_flag]
      · simp [strTruthy, hc]
  exact ⟨hflag, fun hnone => by rw [hflag, hnone]; rfl⟩

/-- Witness for C9 with an absent country code. -/
theorem enriched_source_default_flag_spec_witness :
    (EnrichedSource.makeDefault ⟨"1.2.3.4", 0⟩ none none none).country_flag = "" :=
  (enriched_source_default_flag_spec ⟨"1.2.3.4", 0⟩ none none none).2 rfl

/-- C10: `display_name` yields "hostname (address)" exactly when the
hostname is present and non-empty (and then differs from the bare
address), and the bare address when the hostname is absent or the empty
string. -/
theorem enriched_source_display_name_spec (e : EnrichedSource) :
    (∀ h, e.hostname = some h → h ≠ "" →
        e.display_name = h ++ " (" ++ e.source.address ++ ")"
        ∧ e.display_name ≠ e.source.address)
    ∧ (e.hostname = none → e.display_name = e.source.address)
    ∧ (e.hostname = some "" → e.display_name = e.source.address) := by
  have hfmt : ∀ h, e.hostname = some h → h ≠ "" →
      e.display_name = h ++ " (" ++ e.source.address ++ ")" := by
    intro h hh hne
    simp [EnrichedSource.display_name, hh, hne]
  refine ⟨fun h hh hne => ⟨hfmt h hh hne, ?_⟩, fun hn => ?_, fun hs => ?_⟩
  · rw [hfmt h hh hne]
    intro hcontra
    have hlen := congrArg String.length hcontra
    have l1 : (" (" : String).length = 2 := rfl
    have l2 : (")" : String).length = 1 := rfl
    simp only [String.length_append, l1, l2] at hlen
    omega
  · simp [EnrichedSource.display_name, hn]
  · simp [EnrichedSource.display_name, hs]

/-- Witness for C10 on a concrete enriched source with a hostname. -/
theorem enriched_source_display_name_spec_witness :
    (EnrichedSource.makeDefault ⟨"1.2.3.4", 0⟩ (some "example.com") none
        none).display_name = "example.com (1.2.3.4)" :=
  ((enriched_source_display_name_spec _).1 "example.com" rfl (by decide)).1

/-- Constructing an `EnrichedSource` with the flag already derived from
the country code leaves every field as passed: re-running the derivation
in `__post_init__` is idempotent. -/
theorem make_flag_self (src : Source) (h cc cn : Option String) :
    EnrichedSource.make src h cc cn (country_code_to_flag cc) =
      { source := src, hostname := h, country_code := cc, country_name := cn,
        country_flag := country_code_to_flag cc } := by
  unfold EnrichedSource.make EnrichedSource.post_init
  split <;> rfl

/-- C1: `enrich_sources` yields one `EnrichedSource` per input source in
input order; entry `i` wraps source `i`, carries the DNS batch result for
its address as hostname, the GeoIP batch result's country code and name,
and the flag derived from the country code — regardless of any lookup
having failed (absent results allowed everywhere). -/
theorem enrich_sources_spec (hostnames : String → Option String)
    (geo_results : String → Option GeoIPResult) (sources : List Source) :
    (enrich_sources hostnames geo_results sources).length = sources.length
    ∧ ∀ (i : Nat) (src : Source), sources[i]? = some src →
        (enrich_sources hostnames geo_results sources)[i]? =
          some ({ source := src,
                  hostname := hostnames src.address,
                  country_code :=
                    Option.bind (geo_results src.address) GeoIPResult.country_code,
                  country_name :=
                    Option.bind (geo_results src.address) GeoIPResult.country_name,
                  country_flag :=
                    country_code_to_flag
                      (Option.bind (geo_results src.address) GeoIPResult.country_code) } :
            EnrichedSource) := by
  constructor
  · simp [enrich_sources]
  · intro i src hsrc
    simp only [enrich_sources, List.getElem?_map, hsrc, Option.map_some']
    exact congrArg some (make_flag_self src _ _ _)

/-- Witness for C1 on a concrete one-source batch. -/
theorem enrich_sources_spec_witness :
    (enrich_sources (fun _ => some "example.com") (fun _ => none)
        [⟨"1.2.3.4", 0⟩])[0]? =
      some { source := ⟨"1.2.3.4", 0⟩, hostname := some "example.com",
             country_code := none, country_name := none, country_flag := "" } :=
  (enrich_sources_spec (fun _ => some "example.com") (fun _ => none)
    [⟨"1.2.3.4", 0⟩]).2 0 ⟨"1.2.3.4", 0⟩ rfl

/-- C2: `fetch_chrony_data` classifies connection and library failures
into the empty shape with the daemon-not-running message, permission
failures into the empty shape with the group-membership message, yields
no error on success, and `is_connected` holds exactly when the error is
absent and tracking is present. -/
theorem fetch_chrony_data_spec (conn : Except ChronyError ChronyConnection) :
    ((chronyFetchBody conn = Except.error ChronyError.connectionError ∨
      chronyFetchBody conn = Except.error ChronyError.libraryError) →
      fetch_chrony_data conn =
        { tracking := none, sources := [], source_stats := [], rtc := none,
          error := some "Unable to connect to chronyd. Is the service running?" })
    ∧ (chronyFetchBody conn = Except.error ChronyError.permissionError →
      fetch_chrony_data conn =
        { tracking := none, sources := [], source_stats := [], rtc := none,
          error := some "Permission denied. Add your user to the chrony group." })
    ∧ (∀ x, chronyFetchBody conn = Except.ok x →
        (fetch_chrony_data conn).error = none ∧
        (fetch_chrony_data conn).tracking = some x.1 ∧
        (fetch_chrony_data conn).sources = x.2.1 ∧
        (fetch_chrony_data conn).source_stats = x.2.2.1 ∧
        (fetch_chrony_data conn).rtc = x.2.2.2)
    ∧ ((fetch_chrony_data conn).is_connected = true ↔
        ((fetch_chrony_data conn).error = none ∧
         (fetch_chrony_data conn).tracking.isSome = true)) := by
  refine ⟨fun herr => ?_, fun herr => ?_, fun x hok => ?_, ?_⟩
  · rcases herr with herr | herr <;> simp [fetch_chrony_data, herr]
  · simp [fetch_chrony_data, herr]
  · obtain ⟨t, s, ss, r⟩ := x
    simp [fetch_chrony_data, hok]
  · unfold fetch_chrony_data
    rcases hbody : chronyFetchBody conn with e | x
    · cases e <;> simp [ChronyData.is_connected]
    · obtain ⟨t, s, ss, r⟩ := x
      simp [ChronyData.is_connected]

/-- Witness for C2 on a connection that fails to open. -/
theorem fetch_chrony_data_spec_witness :
    fetch_chrony_data (Except.error ChronyError.connectionError) =
      { tracking := none, sources := [], source_stats := [], rtc := none,
        error := some "Unable to connect to chronyd. Is the service running?" } :=
  (fetch_chrony_data_spec (Except.error ChronyError.connectionError)).1
    (Or.inl rfl)

/-- C3: on a cache miss for an address classified private, loopback,
link-local, reserved, multicast, or unparsable (`_is_private_ip` true),
`GeoIPService.lookup` issues no network request and returns and caches
the result flagged private with no country data; the failure counter is
also untouched. -/
theorem geoip_lookup_private_spec (parse : String → Option IPProperties)
    (net : ApiOutcome) (st : GeoIPState) (ip : String)
    (hmiss : st.cache.lookup ip = none)
    (hpriv : GeoIPService._is_private_ip (parse ip) = true) :
    GeoIPService.lookup parse net st ip =
      ({ ip_address := ip, is_private := true, country_code := none,
         country_name := none },
       { st with cache :=
          (ip, { ip_address := ip, is_private := true, country_code := none,
                 country_name := none }) :: st.cache })
    ∧ (GeoIPService.lookup parse net st ip).2.network_calls = st.network_calls
    ∧ (GeoIPService.lookup parse net st ip).2.failure_count = st.failure_count := by
  have hval : GeoIPService.lookup parse net st ip =
      ({ ip_address := ip, is_private := true, country_code := none,
         country_name := none },
       { st with cache :=
          (ip, { ip_address := ip, is_private := true, country_code := none,
                 country_name := none }) :: st.cache }) := by
    unfold GeoIPService.lookup
    rw [hmiss]
    simp [hpriv]
  exact ⟨hval, by rw [hval], by rw [hval]⟩

/-- Witness for C3 on an unparsable address with an empty cache. -/
theorem geoip_lookup_private_spec_witness :
    GeoIPService.lookup (fun _ => none) ApiOutcome.timeout ⟨[], 0, 0⟩ "bogus" =
      ({ ip_address := "bogus", is_private := true, country_code := none,
         country_name := none },
       { cache := [("bogus",
          { ip_address := "bogus", is_private := true, country_code := none,
            country_name := none })], failure_count := 0, network_calls := 0 }) :=
  (geoip_lookup_private_spec (fun _ => none) ApiOutcome.timeout ⟨[], 0, 0⟩
    "bogus" rfl rfl).1

/-- C4: a cache hit (including a cached absent result) is returned
without touching the resolver; a miss performs exactly one resolver call
and caches the outcome; and `reverse_lookup` converts every timeout, DNS
error or unexpected error into an absent result while incrementing the
failure counter by one, never propagating the error. -/
theorem dns_lookup_spec (resolve : ResolverOutcome) (st : DNSState)
    (ip : String) :
    (∀ v, st.cache.lookup ip = some v →
        DNSService.cached_reverse_lookup resolve st ip = (v, st))
    ∧ (st.cache.lookup ip = none →
        DNSService.cached_reverse_lookup resolve st ip =
          ((DNSService.reverse_lookup resolve st).1,
           { (DNSService.reverse_lookup resolve st).2 with
              cache := (ip, (DNSService.reverse_lookup resolve st).1) ::
                (DNSService.reverse_lookup resolve st).2.cache })
        ∧ (DNSService.cached_reverse_lookup resolve st ip).2.resolver_calls =
            st.resolver_calls + 1)
    ∧ ((resolve = ResolverOutcome.timeout ∨ resolve = ResolverOutcome.dnsError ∨
        resolve = ResolverOutcome.unexpectedError) →
        DNSService.reverse_lookup resolve st =
          (none, { st with failure_count := st.failure_count + 1,
                           resolver_calls := st.resolver_calls + 1 }))
    ∧ (∀ name, resolve = ResolverOutcome.found name →
        DNSService.reverse_lookup resolve st =
          (some name, { st with resolver_calls := st.resolver_calls + 1 })) := by
  refine ⟨fun v hv => ?_, fun hmiss => ⟨?_, ?_⟩, fun hfail => ?_, fun name hfound => ?_⟩
  · unfold DNSService.cached_reverse_lookup
    rw [hv]
  · unfold DNSService.cached_reverse_lookup
    rw [hmiss]
  · unfold DNSService.cached_reverse_lookup
    rw [hmiss]
    cases resolve <;> rfl
  · rcases hfail with rfl | rfl | rfl <;> rfl
  · subst hfound
    rfl

/-- Witness for C4 on an empty cache and a timing-out resolver. -/
theorem dns_lookup_spec_witness :
    DNSService.reverse_lookup ResolverOutcome.timeout ⟨[], 0, 0⟩ =
      (none, { cache := [], failure_count := 1, resolver_calls := 1 }) :=
  (dns_lookup_spec ResolverOutcome.timeout ⟨[], 0, 0⟩ "1.2.3.4").2.2.1
    (Or.inl rfl)

/-- Setting one list element exchanges its contribution to a `countP`. -/
theorem countP_set_add {α : Type} (p : α → Bool) (l : List α) (i : Nat)
    (a b : α) (h : l[i]? = some a) :
    (l.set i b).countP p + (if p a then 1 else 0) =
      l.countP p + (if p b then 1 else 0) := by
  induction i generalizing l with
  | zero =>
    cases l with
    | nil => simp at h
    | cons x xs =>
      have hx : x = a := by simpa using h
      subst hx
      simp only [List.set_cons_zero, List.countP_cons]
      omega
  | succ n ih =>
    cases l with
    | nil => simp at h
    | cons x xs =>
      have htl : xs[n]? = some a := by simpa using h
      have := ih xs htl
      simp only [List.set_cons_succ, List.countP_cons]
      omega

/-- Setting an element without changing its key leaves the key list. -/
theorem map_fst_set {α β : Type} (l : List (α × β)) (i : Nat) (k : α)
    (x y : β) (h : l[i]? = some (k, x)) :
    (l.set i (k, y)).map Prod.fst = l.map Prod.fst := by
  induction i generalizing l with
  | zero =>
    cases l with
    | nil => simp at h
    | cons z zs =>
      have hz : z = (k, x) := by simpa using h
      subst hz
      simp [List.set_cons_zero]
  | succ n ih =>
    cases l with
    | nil => simp at h
    | cons z zs =>
      have htl : zs[n]? = some (k, x) := by simpa using h
      simp [List.set_cons_succ, ih zs htl]

/-- When every task of a batch has finished, the assembled result list
has exactly the tasks' addresses as keys, in order. -/
theorem results_map_fst (l : List (String × LookupTask))
    (h : l.all (fun t =>
      match t.2 with | LookupTask.finished _ => true | _ => false) = true) :
    (l.filterMap (fun t =>
      match t with
      | (ip, LookupTask.finished r) => some (ip, r)
      | _ => none)).map Prod.fst = l.map Prod.fst := by
  induction l with
  | nil => rfl
  | cons x xs ih =>
    obtain ⟨ip, t⟩ := x
    cases t with
    | finished r =>
      simp only [List.all_cons, Bool.and_eq_true] at h
      simp [List.filterMap_cons, ih h.2]
    | pending => simp [List.all_cons] at h
    | running => simp [List.all_cons] at h

/-- Semaphore invariant of the batch: along every schedule from the
initial state, the running tasks and the free permits always add up to
`max_concurrent`, and the task list keeps exactly the requested
addresses, in request order. -/
theorem batch_invariant (max_concurrent : Nat) (ips : List String)
    (s : BatchState)
    (h : Relation.ReflTransGen BatchStep (BatchState.initial max_concurrent ips) s) :
    s.running_count + s.available = max_concurrent
    ∧ s.tasks.map Prod.fst = ips := by
  induction h with
  | refl =>
    constructor
    · have hzero : ∀ l : List String,
          (l.map (fun ip => (ip, LookupTask.pending))).countP
            (fun t => t.2 = LookupTask.running) = 0 := by
        intro l
        induction l with
        | nil => rfl
        | cons y ys ih => simp [List.countP_cons, ih]
      simp [BatchState.running_count, BatchState.initial, hzero]
    · have hid : ∀ l : List String,
          List.map (Prod.fst ∘ fun ip => (ip, LookupTask.pending)) l = l := by
        intro l
        induction l with
        | nil => rfl
        | cons y ys ih => simp [ih, Function.comp]
      simp [BatchState.initial, List.map_map, hid]
  | @tail t u hsteps hstep ih =>
    obtain ⟨hcount, hfst⟩ := ih
    cases hstep with
    | acquire i ip _s hi hfree =>
      have hc := countP_set_add (fun w => w.2 = LookupTask.running) t.tasks i
        (ip, LookupTask.pending) (ip, LookupTask.running) hi
      simp at hc
      constructor
      · simp only [BatchState.running_count] at hcount ⊢
        omega
      · show (t.tasks.set i (ip, LookupTask.running)).map Prod.fst = ips
        rw [map_fst_set t.tasks i ip LookupTask.pending LookupTask.running hi]
        exact hfst
    | release i ip r _s hi =>
      have hc := countP_set_add (fun w => w.2 = LookupTask.running) t.tasks i
        (ip, LookupTask.running) (ip, LookupTask.finished r) hi
      simp at hc
      constructor
      · simp only [BatchState.running_count] at hcount ⊢
        omega
      · show (t.tasks.set i (ip, LookupTask.finished r)).map Prod.fst = ips
        rw [map_fst_set t.tasks i ip LookupTask.running (LookupTask.finished r) hi]
        exact hfst

/-- C8: in every state a `batch_reverse_lookup` schedule can reach, at
most `max_concurrent` lookups are in flight (a pending task can start
only by acquiring a free permit, otherwise it stays suspended), and
whenever the gather completes — all tasks finished — the result mapping
has exactly one entry per requested address. -/
theorem batch_reverse_lookup_bounded_spec (max_concurrent : Nat)
    (ips : List String) (s : BatchState)
    (h : Relation.ReflTransGen BatchStep (BatchState.initial max_concurrent ips) s) :
    s.running_count ≤ max_concurrent
    ∧ (s.allFinished = true → s.results.map Prod.fst = ips)
    ∧ (s.allFinished = true → ∀ ip ∈ ips, ∃ r, (ip, r) ∈ s.results) := by
  obtain ⟨hcount, hfst⟩ := batch_invariant max_concurrent ips s h
  have hres : s.allFinished = true → s.results.map Prod.fst = ips := by
    intro hfin
    have := results_map_fst s.tasks hfin
    calc s.results.map Prod.fst = s.tasks.map Prod.fst := this
    _ = ips := hfst
  refine ⟨by omega, hres, fun hfin ip hip => ?_⟩
  have : ip ∈ s.results.map Prod.fst := (hres hfin).symm ▸ hip
  obtain ⟨⟨a, r⟩, hmem, ha⟩ := List.mem_map.mp this
  exact ⟨r, by rwa [show a = ip from ha] at hmem⟩

/-- Witness for C8: a one-address batch under a semaphore of one permit,
driven through an acquire and a release to completion. -/
theorem batch_reverse_lookup_bounded_spec_witness :
    (BatchState.mk [("1.2.3.4", LookupTask.finished (some "example.com"))] 1).running_count ≤ 1
    ∧ ((BatchState.mk [("1.2.3.4", LookupTask.finished (some "example.com"))] 1).results.map
        Prod.fst = ["1.2.3.4"]) := by
  have h1 : BatchStep (BatchState.initial 1 ["1.2.3.4"])
      (BatchState.mk [("1.2.3.4", LookupTask.running)] 0) :=
    BatchStep.acquire 0 "1.2.3.4" (BatchState.initial 1 ["1.2.3.4"]) rfl
      (by decide)
  have h2 : BatchStep (BatchState.mk [("1.2.3.4", LookupTask.running)] 0)
      (BatchState.mk [("1.2.3.4", LookupTask.finished (some "example.com"))] 1) :=
    BatchStep.release 0 "1.2.3.4" (some "example.com")
      (BatchState.mk [("1.2.3.4", LookupTask.running)] 0) rfl
  have htrace := Relation.ReflTransGen.tail
    (Relation.ReflTransGen.tail Relation.ReflTransGen.refl h1) h2
  have hspec := batch_reverse_lookup_bounded_spec 1 ["1.2.3.4"] _ htrace
  exact ⟨hspec.1, hspec.2.1 rfl⟩

end SecondHand
